import Mathlib

/-!
Verification of the real-time transport layer of the chat_genius repository.

Server side: `src/server/websocket.ts` — the connection registry (`clients`,
a JS `Map<number, Client>`), the inbound frame handler (`ws.on "message"`),
`broadcastToChannel`, `broadcastUserStatus`, the close handler and the
30-second heartbeat interval.

Client side: `src/client/src/hooks/use-websocket.ts` — the `ws.onmessage`
handler dispatch, the `ws.onclose` reconnect backoff and the `ws.onopen`
attempt-counter reset.

JS `Map`s are modelled as association lists in insertion order; JS numeric
truthiness (`0` is falsy, `undefined` is falsy) is modelled explicitly.
Wall-clock values (`new Date()`, `lastSeen`, `createdAt`) are outside the
model; store reads are modelled as total functions and the one store write
whose failure the code handles (the `users` status update in the `auth`
case) carries an explicit success flag.
-/

namespace ChatGenius

/-- `WebSocket.OPEN` readyState constant from the `ws` library. -/
def wsOPEN : Nat := 1

/-- JS truthiness of a number: `0` is falsy. -/
def jsTruthy (n : Nat) : Bool := n != 0

/-- JS truthiness of a possibly-undefined number: `undefined` and `0` are falsy. -/
def jsTruthyOpt : Option Nat → Bool
  | none => false
  | some n => jsTruthy n

/-- `Map.get`: first binding for the key, in insertion order. -/
def mapGet {α : Type} (m : List (Nat × α)) (k : Nat) : Option α :=
  match m with
  | [] => none
  | (k', v) :: rest => if k' = k then some v else mapGet rest k

/-- `Map.set`: replace the existing binding for the key in place, else append. -/
def mapSet {α : Type} (m : List (Nat × α)) (k : Nat) (v : α) : List (Nat × α) :=
  match m with
  | [] => [(k, v)]
  | (k', v') :: rest => if k' = k then (k, v) :: rest else (k', v') :: mapSet rest k v

/-- `Map.delete`: remove the binding(s) for the key. -/
def mapDelete {α : Type} (m : List (Nat × α)) (k : Nat) : List (Nat × α) :=
  match m with
  | [] => []
  | (k', v') :: rest => if k' = k then mapDelete rest k else (k', v') :: mapDelete rest k

/-- The per-connection state of the `Client` interface in `websocket.ts`:
a `WebSocket` extended with `userId?`, `channels?` and `isAlive?`.
`connId` models the identity of the underlying transport object. -/
structure Conn where
  connId : Nat
  userId : Option Nat := none
  channels : List Nat := []
  isAlive : Bool := true
  readyState : Nat := wsOPEN
deriving DecidableEq, Repr

/-- Outbound wire envelopes produced by `websocket.ts`, keyed by `type`. -/
inductive Envelope where
  | auth_success (userId : Nat)
  | message (messageId : Option Nat) (channelId : Nat) (content : String)
      (userId : Nat) (parentId : Option Nat) (user : Option String)
  | thread_message (messageId : Option Nat) (channelId : Nat) (content : String)
      (userId : Nat) (parentId : Option Nat) (user : Option String)
  | message_sent (channelId : Nat) (content : String)
  | typing (userId : Nat) (channelId : Nat)
  | userStatus (userId : Nat) (status : String)
  | error (message : String)
deriving DecidableEq, Repr

/-- The guard `excludeUserId && userId === excludeUserId` inside
`broadcastToChannel` (a `0` or absent `excludeUserId` is falsy). -/
def skipsUser (excludeUserId : Option Nat) (userId : Nat) : Bool :=
  match excludeUserId with
  | none => false
  | some e => jsTruthy e && userId == e

/-- The guard `clients.get(userId)?.readyState === WebSocket.OPEN`. -/
def isOpenClient (clients : List (Nat × Conn)) (userId : Nat) : Bool :=
  match mapGet clients userId with
  | some c => c.readyState == wsOPEN
  | none => false

/-- The user ids that receive a send in one `broadcastToChannel` call:
the member rows returned by the store, filtered by the exclusion guard and
by having an open registry connection, in iteration order. -/
def broadcastRecipients (clients : List (Nat × Conn)) (members : List Nat)
    (excludeUserId : Option Nat) : List Nat :=
  members.filter (fun userId => !skipsUser excludeUserId userId && isOpenClient clients userId)

/-- The `(connId, envelope)` sends of one `broadcastToChannel` call. -/
def broadcastSends (clients : List (Nat × Conn)) (members : List Nat)
    (excludeUserId : Option Nat) (env : Envelope) : List (Nat × Envelope) :=
  (broadcastRecipients clients members excludeUserId).filterMap
    (fun uid => (mapGet clients uid).map (fun c => (c.connId, env)))

/-- `broadcastUserStatus`: iterate the registry and send to every open client. -/
def broadcastStatusSends (clients : List (Nat × Conn)) (u : Nat) (status : String) :
    List (Nat × Envelope) :=
  (clients.filter (fun p => p.2.readyState == wsOPEN)).map
    (fun p => (p.2.connId, Envelope.userStatus u status))

/-- Parsed inbound frames: the `switch (data.type)` cases of the server
handler. A `channelId` (or `auth` `userId`) absent from the JSON is modelled
as `0`, which the code's truthiness guards treat identically. -/
inductive Frame where
  | auth (userId : Nat)
  | message (messageId : Option Nat) (channelId : Nat) (content : String) (parentId : Option Nat)
  | typing (channelId : Nat)
  | unknown (t : String)

/-- The store operations the frame handler consults, as total query functions,
plus the success flag of the `users` status update (the one write whose
thrown failure the `catch` handler observes). -/
structure Db where
  members : Nat → List Nat
  channelsOf : Nat → List Nat
  userRow : Nat → Option String
  statusWriteOk : Bool

/-- Everything one invocation of the server frame handler does: the registry
afterwards, the originating connection afterwards, sends emitted in order,
store status writes, transports the server closed, and whether the `catch`
logger ran. -/
structure HandleResult where
  clients : List (Nat × Conn)
  ws : Conn
  sends : List (Nat × Envelope)
  statusWrites : List (Nat × String)
  closedTransports : List Nat
  loggedError : Bool

/-- `Set.add` semantics of `ws.channels.add` over the channel rows. -/
def addChannels (cur : List Nat) (fresh : List Nat) : List Nat :=
  fresh.foldl (fun acc c => if c ∈ acc then acc else acc ++ [c]) cur

/-- The `ws.on "message"` handler of `websocket.ts`, lines 41-141.
`none` models a frame `JSON.parse` throws on. In the `auth` case the
registry is written before the status update, so a failing update leaves
the entry in place and falls to the `catch` handler, which logs and sends
one `error` envelope back to the originating connection. -/
def handleFrame (db : Db) (clients : List (Nat × Conn)) (ws : Conn)
    (frame : Option Frame) : HandleResult :=
  match frame with
  | none =>
      { clients := clients, ws := ws,
        sends := [(ws.connId, Envelope.error "Failed to process message")],
        statusWrites := [], closedTransports := [], loggedError := true }
  | some (.auth u) =>
      let ws1 : Conn := { ws with userId := some u }
      let clients1 := mapSet clients u ws1
      if db.statusWriteOk then
        let ws2 : Conn := { ws1 with channels := addChannels ws1.channels (db.channelsOf u) }
        let clients2 := mapSet clients1 u ws2
        { clients := clients2, ws := ws2,
          sends := (ws.connId, Envelope.auth_success u) ::
            broadcastStatusSends clients2 u "online",
          statusWrites := [(u, "online")], closedTransports := [], loggedError := false }
      else
        { clients := clients1, ws := ws1,
          sends := [(ws.connId, Envelope.error "Failed to process message")],
          statusWrites := [], closedTransports := [], loggedError := true }
  | some (.message mid chId content pid) =>
      match ws.userId with
      | none =>
          { clients := clients, ws := ws, sends := [], statusWrites := [],
            closedTransports := [], loggedError := false }
      | some u =>
          if u == 0 || chId == 0 then
            { clients := clients, ws := ws, sends := [], statusWrites := [],
              closedTransports := [], loggedError := false }
          else
            let env := Envelope.message mid chId content u pid (db.userRow u)
            let s1 := broadcastSends clients (db.members chId) (some u) env
            let s2 := if jsTruthyOpt pid then
                broadcastSends clients (db.members chId) (some u)
                  (Envelope.thread_message mid chId content u pid (db.userRow u))
              else []
            { clients := clients, ws := ws,
              sends := s1 ++ s2 ++ [(ws.connId, Envelope.message_sent chId content)],
              statusWrites := [], closedTransports := [], loggedError := false }
  | some (.typing chId) =>
      match ws.userId with
      | none =>
          { clients := clients, ws := ws, sends := [], statusWrites := [],
            closedTransports := [], loggedError := false }
      | some u =>
          if u == 0 || chId == 0 then
            { clients := clients, ws := ws, sends := [], statusWrites := [],
              closedTransports := [], loggedError := false }
          else
            { clients := clients, ws := ws,
              sends := broadcastSends clients (db.members chId) none (Envelope.typing u chId),
              statusWrites := [], closedTransports := [], loggedError := false }
  | some (.unknown _) =>
      { clients := clients, ws := ws, sends := [], statusWrites := [],
        closedTransports := [], loggedError := false }

/-- Registry-affecting server events: an inbound frame on some connection, or
a transport close (the `ws.on "close"` handler deletes the entry when the
connection had authenticated with a truthy user id — `if (ws.userId)` is
JS-falsy for an absent *or zero* id). -/
inductive ServerEvent where
  | frame (db : Db) (ws : Conn) (f : Option Frame)
  | closed (ws : Conn)

/-- Effect of one server event on the `clients` registry. -/
def registryStep (clients : List (Nat × Conn)) : ServerEvent → List (Nat × Conn)
  | .frame db ws f => (handleFrame db clients ws f).clients
  | .closed ws =>
      match ws.userId with
      | some u => if jsTruthy u then mapDelete clients u else clients
      | none => clients

/-- The registry after a sequence of server events, from the empty map the
process starts with. -/
def runRegistry (evs : List ServerEvent) : List (Nat × Conn) :=
  evs.foldl registryStep []

/-- Server state seen by the heartbeat interval: the full connection set
`wss.clients` (as connection values, looked up by transport identity), the
`clients` registry as `userId ↦ connId` (the registry aliases the live
connection object, so lookups resolve through `conns`), plus the observable
effect streams. -/
structure HbState where
  conns : List Conn
  registry : List (Nat × Nat)
  statusWrites : List (Nat × String)
  sends : List (Nat × Envelope)
  terminated : List Nat

/-- Resolve a transport identity inside `wss.clients`. -/
def connLookup (conns : List Conn) (cid : Nat) : Option Conn :=
  conns.find? (fun c => c.connId == cid)

/-- `broadcastUserStatus` resolved through the live connection set: iterate
the registry and send to every entry whose connection object is open. -/
def statusSendsVia (registry : List (Nat × Nat)) (conns : List Conn)
    (u : Nat) (status : String) : List (Nat × Envelope) :=
  (registry.filter (fun p =>
      match connLookup conns p.2 with
      | some c => c.readyState == wsOPEN
      | none => false)).map
    (fun p => (p.2, Envelope.userStatus u status))

/-- Remove a terminated transport from `wss.clients`. -/
def removeConn (conns : List Conn) (cid : Nat) : List Conn :=
  conns.filter (fun c => c.connId != cid)

/-- The probe half of a heartbeat step: `ws.isAlive = false; ws.ping()`. -/
def setAliveFalse (conns : List Conn) (cid : Nat) : List Conn :=
  conns.map (fun c => if c.connId == cid then { c with isAlive := false } else c)

/-- The `pong` listener `heartbeat`: set the connection's flag back to true. -/
def pongReceived (conns : List Conn) (cid : Nat) : List Conn :=
  conns.map (fun c => if c.connId == cid then { c with isAlive := true } else c)

/-- The `ws.on "close"` handler, run when a transport is terminated: the
guard `if (ws.userId)` is JS-falsy for an absent *or zero* user id and then
skips deregistration entirely; for a truthy id it deletes the registry
entry, persists status "offline" and broadcasts a `userStatus` envelope
over the registry. -/
def hbCloseConn (st : HbState) (c : Conn) : HbState :=
  match c.userId with
  | none => st
  | some u =>
      if jsTruthy u then
        let reg := mapDelete st.registry u
        { st with
          registry := reg
          statusWrites := st.statusWrites ++ [(u, "offline")]
          sends := st.sends ++ statusSendsVia reg st.conns u "offline" }
      else st

/-- One iteration of the heartbeat `forEach` body for connection `c`:
a dead flag means `ws.terminate()` (and thus the close handler); otherwise
reset the flag and probe. -/
def hbStep (st : HbState) (c : Conn) : HbState :=
  if c.isAlive then
    { st with conns := setAliveFalse st.conns c.connId }
  else
    hbCloseConn
      { st with
        conns := removeConn st.conns c.connId
        terminated := st.terminated ++ [c.connId] } c

/-- One firing of the 30-second heartbeat interval: iterate the snapshot of
`wss.clients`. -/
def hbTick (st : HbState) : HbState :=
  st.conns.foldl hbStep st

/-- Client-side handler registration (`MessageHandler` in
`use-websocket.ts`). The callback itself is not modelled; dispatch is the
list of registrations invoked. -/
structure MsgHandler where
  id : Nat
  scope : String
  isPersistent : Bool
deriving DecidableEq, Repr

/-- An inbound message as the client dispatcher sees it. -/
structure ClientMsg where
  type : String
  channelId : Option Nat := none
  parentId : Option Nat := none
deriving DecidableEq, Repr

/-- `scope.startsWith(p)`, modelled over the character sequences of the two
strings (the library primitive works on byte positions; the semantics is
the same character-prefix test). -/
def scopeStartsWith (scope pre : String) : Bool :=
  pre.data.isPrefixOf scope.data

/-- The registrations the `ws.onmessage` handler invokes for one inbound
message: `auth_success` returns early; otherwise the concatenation of the
persistent and temporary lists is filtered by matching the message type to
the scope string prefix alone. -/
def dispatchedHandlers (persistent temporary : List MsgHandler) (msg : ClientMsg) :
    List MsgHandler :=
  if msg.type == "auth_success" then []
  else
    (persistent ++ temporary).filter (fun h =>
      (msg.type == "message" && scopeStartsWith h.scope "channel-") ||
      (msg.type == "thread_message" && scopeStartsWith h.scope "thread-"))

/-- The client session state the reconnect logic touches:
`reconnectAttemptsRef`, the pending reconnect timer (by its delay), and
whether the destructive connection-error toast has been shown. -/
structure ClientConnState where
  reconnectAttempts : Nat
  scheduledDelay : Option Nat
  errorToastShown : Bool
deriving DecidableEq, Repr

/-- `maxReconnectAttempts` in `use-websocket.ts`. -/
def maxReconnectAttempts : Nat := 5

/-- The backoff delay computed in `ws.onclose`:
`Math.min(1000 * Math.pow(2, attempts), 10000)`. -/
def reconnectDelay (attempt : Nat) : Nat :=
  min (1000 * 2 ^ attempt) 10000

/-- The `ws.onclose` handler's effect on the reconnect state: schedule a
backoff retry while the user is present, the tab visible and attempts
remain; surface the connection-error toast once attempts are exhausted. -/
def onCloseStep (userLoggedIn : Bool) (visible : Bool) (st : ClientConnState) :
    ClientConnState :=
  if userLoggedIn && visible && decide (st.reconnectAttempts < maxReconnectAttempts) then
    { st with
      reconnectAttempts := st.reconnectAttempts + 1
      scheduledDelay := some (reconnectDelay st.reconnectAttempts) }
  else if st.reconnectAttempts ≥ maxReconnectAttempts then
    { st with errorToastShown := true }
  else st

/-- The `ws.onopen` handler's effect: reset the attempt counter and clear any
pending reconnect timer. -/
def onOpenStep (st : ClientConnState) : ClientConnState :=
  { st with reconnectAttempts := 0, scheduledDelay := none }

/-- Initial client session state on mount. -/
def initialClientConnState : ClientConnState :=
  { reconnectAttempts := 0, scheduledDelay := none, errorToastShown := false }

/-- One failed connection cycle while logged in and visible: the pending
timer (if any) fires and is consumed, the attempt fails, `ws.onclose` runs. -/
def failedCycle (st : ClientConnState) : ClientConnState :=
  onCloseStep true true { st with scheduledDelay := none }

/-- Client session state after `n` consecutive failed connection attempts. -/
def afterFailures : Nat → ClientConnState
  | 0 => initialClientConnState
  | n + 1 => failedCycle (afterFailures n)

/-- Sample transport: user 1's first connection. -/
def connA : Conn := { connId := 7, userId := some 1 }

/-- Sample transport: a fresh, not yet authenticated connection. -/
def connB : Conn := { connId := 8 }

/-- Sample store whose status write succeeds. -/
def dbOk : Db := ⟨fun _ => [1, 2, 3], fun _ => [5], fun _ => some "alice", true⟩

/-- Sample store whose status write throws. -/
def dbBad : Db := ⟨fun _ => [], fun _ => [], fun _ => none, false⟩

/-- Sample live connection of user 2. -/
def connLive2 : Conn := { connId := 20, userId := some 2 }

/-- Sample live connection of user 3. -/
def connLive3 : Conn := { connId := 30, userId := some 3 }

/-- Sample heartbeat-supervised server state: users 2 and 3 connected. -/
def hbSample : HbState :=
  { conns := [connLive2, connLive3], registry := [(2, 20), (3, 30)],
    statusWrites := [], sends := [], terminated := [] }

/-- Sample connection authenticated as user id 0 (the `auth` case registers
`data.userId` unguarded, so a zero id can enter the registry). -/
def connLive0 : Conn := { connId := 40, userId := some 0 }

/-- Sample heartbeat-supervised server state with only user 0 connected. -/
def hbZero : HbState :=
  { conns := [connLive0], registry := [(0, 40)],
    statusWrites := [], sends := [], terminated := [] }

theorem mapGet_mapSet_self {α : Type} (m : List (Nat × α)) (k : Nat) (v : α) :
    mapGet (mapSet m k v) k = some v := by
  induction m with
  | nil => simp [mapSet, mapGet]
  | cons p rest ih =>
      obtain ⟨k', v'⟩ := p
      by_cases h : k' = k
      · simp [mapSet, h, mapGet]
      · simp [mapSet, h, mapGet, ih]

theorem mapSet_keys {α : Type} (m : List (Nat × α)) (k : Nat) (v : α) :
    (mapSet m k v).map Prod.fst =
      if k ∈ m.map Prod.fst then m.map Prod.fst else m.map Prod.fst ++ [k] := by
  induction m with
  | nil => simp [mapSet]
  | cons p rest ih =>
      obtain ⟨k', v'⟩ := p
      by_cases h : k' = k
      · simp [mapSet, h]
      · have hne : ¬k = k' := fun hh => h hh.symm
        by_cases hmem : k ∈ rest.map Prod.fst
        · simp [mapSet, h, hne, hmem, ih]
        · simp [mapSet, h, hne, hmem, ih]

theorem nodup_keys_mapSet {α : Type} (m : List (Nat × α)) (k : Nat) (v : α)
    (h : (m.map Prod.fst).Nodup) : ((mapSet m k v).map Prod.fst).Nodup := by
  rw [mapSet_keys]
  by_cases hmem : k ∈ m.map Prod.fst
  · simpa [hmem] using h
  · simp [hmem, List.nodup_append, h]

theorem count_keys_mapSet_self {α : Type} (m : List (Nat × α)) (k : Nat) (v : α)
    (h : (m.map Prod.fst).count k ≤ 1) : ((mapSet m k v).map Prod.fst).count k = 1 := by
  rw [mapSet_keys]
  by_cases hmem : k ∈ m.map Prod.fst
  · have h1 : 1 ≤ (m.map Prod.fst).count k := List.one_le_count_iff.2 hmem
    simp [hmem]
    omega
  · have h0 : (m.map Prod.fst).count k = 0 := List.count_eq_zero.2 hmem
    simp [hmem, List.count_append, h0]

theorem mapGet_mapDelete {α : Type} (m : List (Nat × α)) (k v : Nat) :
    mapGet (mapDelete m k) v = if v = k then none else mapGet m v := by
  induction m with
  | nil => simp [mapDelete, mapGet]
  | cons p rest ih =>
      obtain ⟨k', v'⟩ := p
      by_cases h : k' = k
      · simp only [mapDelete, if_pos h, ih]
        by_cases hv : v = k
        · simp [hv]
        · have hk'v : ¬k' = v := by omega
          simp [hv, mapGet, hk'v]
      · simp only [mapDelete, if_neg h]
        by_cases hkv : k' = v
        · have hv : ¬v = k := by omega
          simp [mapGet, hkv, hv]
        · simp [mapGet, hkv, ih]

theorem mem_of_mem_mapDelete {α : Type} (m : List (Nat × α)) (k : Nat) (q : Nat × α)
    (h : q ∈ mapDelete m k) : q ∈ m := by
  induction m with
  | nil => simp [mapDelete] at h
  | cons p rest ih =>
      obtain ⟨k', v'⟩ := p
      by_cases hk : k' = k
      · simp only [mapDelete, if_pos hk] at h
        exact List.mem_cons_of_mem _ (ih h)
      · simp only [mapDelete, if_neg hk] at h
        rcases List.mem_cons.1 h with h1 | h2
        · exact h1 ▸ List.mem_cons_self _ _
        · exact List.mem_cons_of_mem _ (ih h2)

theorem mem_keys_mapDelete {α : Type} (m : List (Nat × α)) (k x : Nat)
    (h : x ∈ (mapDelete m k).map Prod.fst) : x ∈ m.map Prod.fst := by
  rcases List.mem_map.1 h with ⟨q, hq, hx⟩
  exact List.mem_map.2 ⟨q, mem_of_mem_mapDelete m k q hq, hx⟩

theorem nodup_keys_mapDelete {α : Type} (m : List (Nat × α)) (k : Nat)
    (h : (m.map Prod.fst).Nodup) : ((mapDelete m k).map Prod.fst).Nodup := by
  induction m with
  | nil => simp [mapDelete]
  | cons p rest ih =>
      obtain ⟨k', v'⟩ := p
      rw [List.map_cons, List.nodup_cons] at h
      by_cases hk : k' = k
      · simp only [mapDelete, if_pos hk]
        exact ih h.2
      · simp only [mapDelete, if_neg hk, List.map_cons, List.nodup_cons]
        exact ⟨fun hmem => h.1 (mem_keys_mapDelete rest k k' hmem), ih h.2⟩

theorem mapGet_mem {α : Type} (m : List (Nat × α)) (k : Nat) (v : α)
    (h : mapGet m k = some v) : (k, v) ∈ m := by
  induction m with
  | nil => simp [mapGet] at h
  | cons p rest ih =>
      obtain ⟨k', v'⟩ := p
      by_cases hk : k' = k
      · simp [mapGet, hk] at h
        simp [hk, h]
      · simp [mapGet, hk] at h
        simp [ih h]

theorem count_filter_eq (p : Nat → Bool) (l : List Nat) (v : Nat) :
    (l.filter p).count v = if p v then l.count v else 0 := by
  induction l with
  | nil => simp
  | cons a t ih =>
      by_cases hpa : p a = true
      · by_cases hav : a = v
        · subst hav
          simp [List.filter_cons, hpa, List.count_cons, ih]
        · have : ¬v = a := fun hh => hav hh.symm
          simp [List.filter_cons, hpa, List.count_cons, this, ih]
      · by_cases hav : a = v
        · subst hav
          simp [List.filter_cons, hpa, List.count_cons, ih]
        · have : ¬v = a := fun hh => hav hh.symm
          simp [List.filter_cons, hpa, List.count_cons, this, ih]

/-- C1 (amended): for `broadcastToChannel(c, e, excludeUserId = u)` with a
nonzero `u`, the recipients are exactly the members returned by the store's
membership query that have an open registry connection, minus `u`, each
delivered to exactly once per call. (A zero `u` is falsy in JS, so the
exclusion guard skips nobody in that case — see the counterexample.) -/
theorem broadcast_delivers_connected_members_minus_sender_once
    (clients : List (Nat × Conn)) (members : List Nat) (u v : Nat)
    (hnd : members.Nodup) (hu : u ≠ 0) :
    (broadcastRecipients clients members (some u)).count v =
      if v ∈ members ∧ isOpenClient clients v = true ∧ v ≠ u then 1 else 0 := by
  unfold broadcastRecipients
  rw [count_filter_eq]
  by_cases hmem : v ∈ members
  · by_cases hopen : isOpenClient clients v = true
    · by_cases hvu : v = u
      · subst hvu
        have hskip : skipsUser (some v) v = true := by
          simp [skipsUser, jsTruthy]
          omega
        simp [hskip, hmem, hopen]
      · have hskip : skipsUser (some u) v = false := by
          simp [skipsUser, jsTruthy, hvu]
        have hcnt : members.count v = 1 := List.count_eq_one_of_mem hnd hmem
        simp [hskip, hopen, hmem, hvu, hcnt]
    · simp [hopen, hmem]
  · have h0 : members.count v = 0 := List.count_eq_zero.2 hmem
    simp [hmem, h0]

/-- C1 witness: channel members `[1, 2, 3]`, users 2 and 3 have open
connections, user 1 posts with itself excluded: user 2 receives exactly
once. -/
theorem broadcast_delivers_witness :
    ([1, 2, 3] : List Nat).Nodup ∧ (1 : Nat) ≠ 0 ∧
      (broadcastRecipients [(2, { connId := 5 }), (3, { connId := 6 })] [1, 2, 3]
          (some 1)).count 2 =
        if 2 ∈ [1, 2, 3] ∧
            isOpenClient [(2, { connId := 5 }), (3, { connId := 6 })] 2 = true ∧ 2 ≠ 1
          then 1 else 0 :=
  ⟨by decide, by decide,
    broadcast_delivers_connected_members_minus_sender_once
      [(2, { connId := 5 }), (3, { connId := 6 })] [1, 2, 3] 1 2 (by decide) (by decide)⟩

/-- C1 counterexample: the delivery set is *not* always
`(members ∩ connected) minus the excluded user`: `excludeUserId = 0` is
falsy in JS, so the guard `excludeUserId && userId === excludeUserId` never
skips, and a connected member with user id 0 receives its own excluded
broadcast. -/
theorem broadcast_exclude_zero_cex :
    ¬ (∀ (clients : List (Nat × Conn)) (members : List Nat) (u : Nat),
        u ∉ broadcastRecipients clients members (some u)) := by
  intro h
  exact h [(0, { connId := 7, userId := some 0 })] [0] 0 (by decide)

theorem handleFrame_keys_nodup (db : Db) (clients : List (Nat × Conn)) (ws : Conn)
    (f : Option Frame) (h : (clients.map Prod.fst).Nodup) :
    (((handleFrame db clients ws f).clients).map Prod.fst).Nodup := by
  match f with
  | none => exact h
  | some (.auth u) =>
      by_cases hdb : db.statusWriteOk
      · simp only [handleFrame, if_pos hdb]
        exact nodup_keys_mapSet _ u _ (nodup_keys_mapSet _ u _ h)
      · simp only [handleFrame, if_neg hdb]
        exact nodup_keys_mapSet _ u _ h
  | some (.message mid chId content pid) =>
      match hws : ws.userId with
      | none => simp only [handleFrame, hws]; exact h
      | some u =>
          by_cases hg : (u == 0 || chId == 0) = true
          · simp only [handleFrame, hws, if_pos hg]; exact h
          · simp only [handleFrame, hws, if_neg hg]; exact h
  | some (.typing chId) =>
      match hws : ws.userId with
      | none => simp only [handleFrame, hws]; exact h
      | some u =>
          by_cases hg : (u == 0 || chId == 0) = true
          · simp only [handleFrame, hws, if_pos hg]; exact h
          · simp only [handleFrame, hws, if_neg hg]; exact h
  | some (.unknown t) => exact h

theorem registryStep_keys_nodup (clients : List (Nat × Conn)) (ev : ServerEvent)
    (h : (clients.map Prod.fst).Nodup) :
    ((registryStep clients ev).map Prod.fst).Nodup := by
  match ev with
  | .frame db ws f => exact handleFrame_keys_nodup db clients ws f h
  | .closed ws =>
      match hws : ws.userId with
      | none => simp only [registryStep, hws]; exact h
      | some u =>
          simp only [registryStep, hws]
          by_cases hju : jsTruthy u
          · simp only [if_pos hju]
            exact nodup_keys_mapDelete clients u h
          · simp only [if_neg hju]
            exact h

theorem runRegistry_keys_nodup_from (evs : List ServerEvent)
    (m : List (Nat × Conn)) (h : (m.map Prod.fst).Nodup) :
    ((evs.foldl registryStep m).map Prod.fst).Nodup := by
  induction evs generalizing m with
  | nil => exact h
  | cons ev rest ih =>
      exact ih (registryStep m ev) (registryStep_keys_nodup m ev h)

/-- C2: starting from the empty registry the process boots with, after any
sequence of server events the `clients` map holds at most one entry per user
id; and processing an `auth` envelope for a user id that already has at most
one entry leaves exactly one entry for it — the newly authenticated
connection — never a duplicate. -/
theorem registry_at_most_one_entry_per_user :
    (∀ (evs : List ServerEvent) (u : Nat),
      ((runRegistry evs).map Prod.fst).count u ≤ 1) ∧
    (∀ (db : Db) (clients : List (Nat × Conn)) (ws : Conn) (u : Nat),
      (clients.map Prod.fst).count u ≤ 1 →
        (((handleFrame db clients ws (some (.auth u))).clients).map Prod.fst).count u = 1 ∧
        ∃ c, mapGet (handleFrame db clients ws (some (.auth u))).clients u = some c ∧
          c.connId = ws.connId ∧ c.userId = some u) := by
  constructor
  · intro evs u
    have hnd : ((runRegistry evs).map Prod.fst).Nodup :=
      runRegistry_keys_nodup_from evs [] (by simp)
    exact List.nodup_iff_count_le_one.1 hnd u
  · intro db clients ws u h
    by_cases hdb : db.statusWriteOk
    · simp only [handleFrame, if_pos hdb]
      refine ⟨?_, ?_⟩
      · exact count_keys_mapSet_self _ u _
          (le_of_eq (count_keys_mapSet_self _ u _ h))
      · exact ⟨_, mapGet_mapSet_self _ u _, rfl, rfl⟩
    · simp only [handleFrame, if_neg hdb]
      exact ⟨count_keys_mapSet_self _ u _ h,
        ⟨_, mapGet_mapSet_self _ u _, rfl, rfl⟩⟩

/-- C2 witness: user 1 is already registered on `connA`; a second `auth` for
user 1 arriving on `connB` leaves exactly one entry for user 1, bound to
`connB`. -/
theorem registry_second_auth_witness :
    (([(1, connA)].map Prod.fst).count 1 ≤ 1) ∧
    ((((handleFrame dbOk [(1, connA)] connB (some (.auth 1))).clients).map Prod.fst).count 1 = 1 ∧
      ∃ c, mapGet (handleFrame dbOk [(1, connA)] connB (some (.auth 1))).clients 1 = some c ∧
        c.connId = connB.connId ∧ c.userId = some 1) :=
  ⟨by decide,
    registry_at_most_one_entry_per_user.2 dbOk [(1, connA)] connB 1 (by decide)⟩

/-- C3 (amended): the client dispatcher routes purely on the scope string
prefix: a `message` envelope invokes exactly the registered handlers whose
scope starts with `channel-`, and a `thread_message` envelope exactly those
whose scope starts with `thread-`, regardless of which channel or thread id
follows the prefix. In particular a `thread-*` handler never receives a
`message` envelope and a `channel-*` handler never receives a
`thread_message` envelope. -/
theorem dispatch_routes_on_scope_string_only
    (persistent temporary : List MsgHandler) (msg : ClientMsg) (h : MsgHandler) :
    h ∈ dispatchedHandlers persistent temporary msg ↔
      h ∈ persistent ++ temporary ∧
        ((msg.type = "message" ∧ scopeStartsWith h.scope "channel-" = true) ∨
         (msg.type = "thread_message" ∧ scopeStartsWith h.scope "thread-" = true)) := by
  unfold dispatchedHandlers
  by_cases ha : msg.type = "auth_success"
  · simp [ha]
  · simp [ha, List.mem_filter]
    tauto

/-- C3 counterexample: a handler registered at scope `channel-7` is invoked
for a `message` envelope whose `channelId` is 5, so dispatch is *not*
restricted to the scope whose id equals the envelope's `channelId`. -/
theorem dispatch_id_mismatch_cex :
    (⟨1, "channel-7", true⟩ : MsgHandler) ∈
      dispatchedHandlers [⟨1, "channel-7", true⟩] []
        { type := "message", channelId := some 5, parentId := none } ∧
    ("channel-7" : String) ≠ "channel-" ++ toString (5 : Nat) := by
  constructor
  · decide
  · decide

theorem handleFrame_auth_ok (db : Db) (clients : List (Nat × Conn)) (ws : Conn)
    (u : Nat) (hdb : db.statusWriteOk = true) :
    handleFrame db clients ws (some (.auth u)) =
      { clients := mapSet (mapSet clients u { ws with userId := some u }) u
          { ws with userId := some u, channels := addChannels ws.channels (db.channelsOf u) }
        ws := { ws with userId := some u, channels := addChannels ws.channels (db.channelsOf u) }
        sends := (ws.connId, Envelope.auth_success u) ::
          broadcastStatusSends (mapSet (mapSet clients u { ws with userId := some u }) u
            { ws with userId := some u, channels := addChannels ws.channels (db.channelsOf u) })
            u "online"
        statusWrites := [(u, "online")]
        closedTransports := []
        loggedError := false } := by
  simp [handleFrame, hdb]

theorem handleFrame_auth_fail (db : Db) (clients : List (Nat × Conn)) (ws : Conn)
    (u : Nat) (hdb : db.statusWriteOk = false) :
    handleFrame db clients ws (some (.auth u)) =
      { clients := mapSet clients u { ws with userId := some u }
        ws := { ws with userId := some u }
        sends := [(ws.connId, Envelope.error "Failed to process message")]
        statusWrites := []
        closedTransports := []
        loggedError := true } := by
  simp [handleFrame, hdb]

theorem handleFrame_message_eq (db : Db) (clients : List (Nat × Conn)) (ws : Conn)
    (mid : Option Nat) (chId : Nat) (content : String) (pid : Option Nat) (u : Nat)
    (hws : ws.userId = some u) (hu : u ≠ 0) (hch : chId ≠ 0) :
    handleFrame db clients ws (some (.message mid chId content pid)) =
      { clients := clients
        ws := ws
        sends := broadcastSends clients (db.members chId) (some u)
            (Envelope.message mid chId content u pid (db.userRow u)) ++
          (if jsTruthyOpt pid then
              broadcastSends clients (db.members chId) (some u)
                (Envelope.thread_message mid chId content u pid (db.userRow u))
            else []) ++
          [(ws.connId, Envelope.message_sent chId content)]
        statusWrites := []
        closedTransports := []
        loggedError := false } := by
  simp [handleFrame, hws, hu, hch]

theorem handleFrame_typing_eq (db : Db) (clients : List (Nat × Conn)) (ws : Conn)
    (chId u : Nat) (hws : ws.userId = some u) (hu : u ≠ 0) (hch : chId ≠ 0) :
    handleFrame db clients ws (some (.typing chId)) =
      { clients := clients
        ws := ws
        sends := broadcastSends clients (db.members chId) none (Envelope.typing u chId)
        statusWrites := []
        closedTransports := []
        loggedError := false } := by
  simp [handleFrame, hws, hu, hch]

/-- C4 (amended): processing an `auth` envelope rebinds the registry entry
for the user id to the newly authenticating connection, but never closes any
transport: the superseded connection is silently dropped from the registry
with its socket left open (the dual-login ambiguity §9 of the spec flags). -/
theorem auth_replaces_registry_without_closing_old
    (db : Db) (clients : List (Nat × Conn)) (ws : Conn) (u : Nat) :
    (handleFrame db clients ws (some (.auth u))).closedTransports = [] ∧
    ∃ c, mapGet (handleFrame db clients ws (some (.auth u))).clients u = some c ∧
      c.connId = ws.connId ∧ c.userId = some u := by
  cases hdb : db.statusWriteOk with
  | true =>
      rw [handleFrame_auth_ok db clients ws u hdb]
      exact ⟨rfl, _, mapGet_mapSet_self _ u _, rfl, rfl⟩
  | false =>
      rw [handleFrame_auth_fail db clients ws u hdb]
      exact ⟨rfl, _, mapGet_mapSet_self _ u _, rfl, rfl⟩

/-- C4 counterexample: user 1 is registered on `connA` (transport 7); a
second `auth` for user 1 on `connB` (transport 8) replaces the registry
entry, yet transport 7 is never closed — the server closes no transport at
all in the `auth` case. -/
theorem auth_does_not_close_old_transport_cex :
    connA.connId ∉ (handleFrame dbOk [(1, connA)] connB (some (.auth 1))).closedTransports ∧
    (mapGet (handleFrame dbOk [(1, connA)] connB (some (.auth 1))).clients 1).map Conn.connId
      = some connB.connId := by
  exact ⟨by decide, by decide⟩

/-- C7: a frame that fails to parse, and a frame whose processing throws
(the status write failing during `auth`), each produce exactly one `error`
envelope sent to the originating connection and nothing else; no transport
is closed and the registry of other users is untouched. An envelope whose
`type` matches no `switch` case is ignored: no sends, no error log, no
close. -/
theorem malformed_frames_error_reply_only
    (db : Db) (clients : List (Nat × Conn)) (ws : Conn) :
    ((handleFrame db clients ws none).sends
        = [(ws.connId, Envelope.error "Failed to process message")] ∧
      (handleFrame db clients ws none).closedTransports = [] ∧
      (handleFrame db clients ws none).clients = clients) ∧
    (db.statusWriteOk = false → ∀ u : Nat,
      (handleFrame db clients ws (some (.auth u))).sends
          = [(ws.connId, Envelope.error "Failed to process message")] ∧
      (handleFrame db clients ws (some (.auth u))).closedTransports = []) ∧
    (∀ t : String,
      (handleFrame db clients ws (some (.unknown t))).sends = [] ∧
      (handleFrame db clients ws (some (.unknown t))).closedTransports = [] ∧
      (handleFrame db clients ws (some (.unknown t))).clients = clients ∧
      (handleFrame db clients ws (some (.unknown t))).loggedError = false) := by
  refine ⟨⟨rfl, rfl, rfl⟩, ?_, fun t => ⟨rfl, rfl, rfl, rfl⟩⟩
  intro hdb u
  rw [handleFrame_auth_fail db clients ws u hdb]
  exact ⟨rfl, rfl⟩

/-- C7 witness: on the failing store, an `auth` frame for user 2 yields the
single error reply and closes nothing. -/
theorem malformed_frames_witness :
    dbBad.statusWriteOk = false ∧
    ((handleFrame dbBad [] connB (some (.auth 2))).sends
        = [(connB.connId, Envelope.error "Failed to process message")] ∧
      (handleFrame dbBad [] connB (some (.auth 2))).closedTransports = []) :=
  ⟨rfl, (malformed_frames_error_reply_only dbBad [] connB).2.1 rfl 2⟩

/-- C8 counterexample: when the status write fails during authenticate, the
thrown error reaches the `catch` handler, which *does* send an envelope
(type `error`) back to the client — the failure is not log-only. -/
theorem auth_store_failure_sends_error_cex :
    (handleFrame dbBad [] connB (some (.auth 2))).sends
      = [(connB.connId, Envelope.error "Failed to process message")] ∧
    (handleFrame dbBad [] connB (some (.auth 2))).sends ≠ [] :=
  ⟨rfl, by decide⟩

/-- C8 (amended): if the store write fails during authenticate, the failure
is logged and a generic `error` envelope is sent to the client (the
`auth_success` and presence envelopes are withheld, and no status write
lands), while the in-memory registry entry for the user — bound to the new
connection — still exists after the failure. -/
theorem auth_store_failure_logs_sends_error_keeps_entry
    (db : Db) (clients : List (Nat × Conn)) (ws : Conn) (u : Nat)
    (hdb : db.statusWriteOk = false) :
    (handleFrame db clients ws (some (.auth u))).loggedError = true ∧
    (handleFrame db clients ws (some (.auth u))).sends
      = [(ws.connId, Envelope.error "Failed to process message")] ∧
    (handleFrame db clients ws (some (.auth u))).statusWrites = [] ∧
    ∃ c, mapGet (handleFrame db clients ws (some (.auth u))).clients u = some c ∧
      c.connId = ws.connId := by
  rw [handleFrame_auth_fail db clients ws u hdb]
  exact ⟨rfl, rfl, rfl, _, mapGet_mapSet_self _ u _, rfl⟩

/-- C8 witness: concrete failing store, user 1 re-authenticating on `connB`. -/
theorem auth_store_failure_witness :
    dbBad.statusWriteOk = false ∧
    ((handleFrame dbBad [(1, connA)] connB (some (.auth 1))).loggedError = true ∧
      (handleFrame dbBad [(1, connA)] connB (some (.auth 1))).sends
        = [(connB.connId, Envelope.error "Failed to process message")] ∧
      (handleFrame dbBad [(1, connA)] connB (some (.auth 1))).statusWrites = [] ∧
      ∃ c, mapGet (handleFrame dbBad [(1, connA)] connB (some (.auth 1))).clients 1 = some c ∧
        c.connId = connB.connId) :=
  ⟨rfl, auth_store_failure_logs_sends_error_keeps_entry dbBad [(1, connA)] connB 1 rfl⟩

theorem sender_not_in_own_broadcast (clients : List (Nat × Conn))
    (members : List Nat) (u : Nat) (hu : u ≠ 0) :
    u ∉ broadcastRecipients clients members (some u) := by
  intro hmem
  have hcond := (List.mem_filter.1 hmem).2
  simp [skipsUser, jsTruthy, hu] at hcond

/-- C9: a successfully processed `message` frame from an authenticated
connection sends a `message_sent` confirmation (carrying the channel id and
content) back to the originating connection, while the sender's own user id
is excluded from the channel broadcast of that message. -/
theorem message_sent_confirmation_to_sender
    (db : Db) (clients : List (Nat × Conn)) (ws : Conn)
    (mid : Option Nat) (chId : Nat) (content : String) (pid : Option Nat) (u : Nat)
    (hws : ws.userId = some u) (hu : u ≠ 0) (hch : chId ≠ 0) :
    (ws.connId, Envelope.message_sent chId content)
        ∈ (handleFrame db clients ws (some (.message mid chId content pid))).sends ∧
    u ∉ broadcastRecipients clients (db.members chId) (some u) := by
  refine ⟨?_, sender_not_in_own_broadcast clients (db.members chId) u hu⟩
  rw [handleFrame_message_eq db clients ws mid chId content pid u hws hu hch]
  simp

/-- C9 witness: user 1 posts "hi" in channel 9 while being the only
connected member; the confirmation still comes back and user 1 is not a
broadcast recipient. -/
theorem message_sent_confirmation_witness :
    connA.userId = some 1 ∧ (1 : Nat) ≠ 0 ∧ (9 : Nat) ≠ 0 ∧
    ((connA.connId, Envelope.message_sent 9 "hi")
        ∈ (handleFrame dbOk [(1, connA)] connA (some (.message none 9 "hi" none))).sends ∧
      1 ∉ broadcastRecipients [(1, connA)] (dbOk.members 9) (some 1)) :=
  ⟨rfl, by decide, by decide,
    message_sent_confirmation_to_sender dbOk [(1, connA)] connA none 9 "hi" none 1 rfl
      (by decide) (by decide)⟩

/-- C10: a `typing` frame is broadcast with `broadcastToChannel` invoked
without `excludeUserId`, so the sends are exactly the no-exclusion
broadcast; in particular the typing user's own registered connection also
receives the envelope whenever they are a member of the channel with an
open connection. -/
theorem typing_broadcast_no_exclusion
    (db : Db) (clients : List (Nat × Conn)) (ws : Conn) (chId u : Nat)
    (hws : ws.userId = some u) (hu : u ≠ 0) (hch : chId ≠ 0) :
    (handleFrame db clients ws (some (.typing chId))).sends
        = broadcastSends clients (db.members chId) none (Envelope.typing u chId) ∧
    (∀ c : Conn, u ∈ db.members chId → mapGet clients u = some c →
      c.readyState = wsOPEN →
      (c.connId, Envelope.typing u chId)
        ∈ (handleFrame db clients ws (some (.typing chId))).sends) := by
  refine ⟨by rw [handleFrame_typing_eq db clients ws chId u hws hu hch], ?_⟩
  intro c hmem hget hopen
  rw [handleFrame_typing_eq db clients ws chId u hws hu hch]
  apply List.mem_filterMap.2
  refine ⟨u, ?_, ?_⟩
  · apply List.mem_filter.2
    refine ⟨hmem, ?_⟩
    simp [skipsUser, isOpenClient, hget, hopen]
  · simp [hget]

/-- C10 witness: user 1 (a member of channel 9, connected and open) types;
their own connection receives the `typing` envelope. -/
theorem typing_broadcast_witness :
    connA.userId = some 1 ∧ (1 : Nat) ≠ 0 ∧ (9 : Nat) ≠ 0 ∧
    ((handleFrame dbOk [(1, connA)] connA (some (.typing 9))).sends
        = broadcastSends [(1, connA)] (dbOk.members 9) none (Envelope.typing 1 9) ∧
      ∀ c : Conn, 1 ∈ dbOk.members 9 → mapGet [(1, connA)] 1 = some c →
        c.readyState = wsOPEN →
        (c.connId, Envelope.typing 1 9)
          ∈ (handleFrame dbOk [(1, connA)] connA (some (.typing 9))).sends) :=
  ⟨rfl, by decide, by decide,
    typing_broadcast_no_exclusion dbOk [(1, connA)] connA 9 1 rfl (by decide) (by decide)⟩

/-- C6: from attempt counter 0, the delays the `ws.onclose` handler
schedules across successive failed connection cycles are exactly 1000,
2000, 4000, 8000, 10000 ms (`min(1000 * 2^attempt, 10000)` caps the fifth);
after the fifth failure no further reconnect is scheduled and the
destructive connection-error toast is surfaced; and `ws.onopen` resets the
attempt counter to 0. -/
theorem reconnect_backoff_schedule :
    (afterFailures 1).scheduledDelay = some 1000 ∧
    (afterFailures 2).scheduledDelay = some 2000 ∧
    (afterFailures 3).scheduledDelay = some 4000 ∧
    (afterFailures 4).scheduledDelay = some 8000 ∧
    (afterFailures 5).scheduledDelay = some 10000 ∧
    (afterFailures 6).scheduledDelay = none ∧
    (afterFailures 6).errorToastShown = true ∧
    (afterFailures 5).errorToastShown = false ∧
    (∀ st : ClientConnState, (onOpenStep st).reconnectAttempts = 0 ∧
      (onOpenStep st).scheduledDelay = none) := by
  refine ⟨by decide, by decide, by decide, by decide, by decide, by decide, by decide,
    by decide, fun st => ⟨rfl, rfl⟩⟩

theorem hbStep_sends_mem (st : HbState) (c : Conn) (x : Nat × Envelope)
    (h : x ∈ st.sends) : x ∈ (hbStep st c).sends := by
  by_cases hca : c.isAlive
  · simp [hbStep, hca, h]
  · cases hcu : c.userId with
    | none => simp [hbStep, hca, hbCloseConn, hcu, h]
    | some u =>
        by_cases hju : jsTruthy u
        · simp [hbStep, hca, hbCloseConn, hcu, hju]
          exact Or.inl h
        · simp [hbStep, hca, hbCloseConn, hcu, hju, h]

theorem foldl_hbStep_sends_mem (l : List Conn) (st : HbState) (x : Nat × Envelope)
    (h : x ∈ st.sends) : x ∈ (l.foldl hbStep st).sends := by
  induction l generalizing st with
  | nil => exact h
  | cons d rest ih => exact ih _ (hbStep_sends_mem st d x h)

theorem hbStep_writes_mem (st : HbState) (c : Conn) (x : Nat × String)
    (h : x ∈ st.statusWrites) : x ∈ (hbStep st c).statusWrites := by
  by_cases hca : c.isAlive
  · simp [hbStep, hca, h]
  · cases hcu : c.userId with
    | none => simp [hbStep, hca, hbCloseConn, hcu, h]
    | some u =>
        by_cases hju : jsTruthy u
        · simp [hbStep, hca, hbCloseConn, hcu, hju]
          exact Or.inl h
        · simp [hbStep, hca, hbCloseConn, hcu, hju, h]

theorem foldl_hbStep_writes_mem (l : List Conn) (st : HbState) (x : Nat × String)
    (h : x ∈ st.statusWrites) : x ∈ (l.foldl hbStep st).statusWrites := by
  induction l generalizing st with
  | nil => exact h
  | cons d rest ih => exact ih _ (hbStep_writes_mem st d x h)

theorem hbStep_terminated_mem (st : HbState) (c : Conn) (x : Nat)
    (h : x ∈ st.terminated) : x ∈ (hbStep st c).terminated := by
  by_cases hca : c.isAlive
  · simp [hbStep, hca, h]
  · cases hcu : c.userId with
    | none =>
        simp [hbStep, hca, hbCloseConn, hcu]
        exact Or.inl h
    | some u =>
        by_cases hju : jsTruthy u <;>
          simp [hbStep, hca, hbCloseConn, hcu, hju] <;>
          exact Or.inl h

theorem foldl_hbStep_terminated_mem (l : List Conn) (st : HbState) (x : Nat)
    (h : x ∈ st.terminated) : x ∈ (l.foldl hbStep st).terminated := by
  induction l generalizing st with
  | nil => exact h
  | cons d rest ih => exact ih _ (hbStep_terminated_mem st d x h)

theorem hbStep_registry_some (st : HbState) (c : Conn) (v cid : Nat)
    (h : mapGet (hbStep st c).registry v = some cid) :
    mapGet st.registry v = some cid := by
  by_cases hca : c.isAlive
  · simpa [hbStep, hca] using h
  · cases hcu : c.userId with
    | none => simpa [hbStep, hca, hbCloseConn, hcu] using h
    | some u =>
        by_cases hju : jsTruthy u
        · have hreg : (hbStep st c).registry = mapDelete st.registry u := by
            simp [hbStep, hca, hbCloseConn, hcu, hju]
          rw [hreg, mapGet_mapDelete] at h
          by_cases hv : v = u
          · simp [hv] at h
          · simpa [hv] using h
        · have hreg : (hbStep st c).registry = st.registry := by
            simp [hbStep, hca, hbCloseConn, hcu, hju]
          rwa [hreg] at h

theorem foldl_hbStep_registry_some (l : List Conn) (st : HbState) (v cid : Nat)
    (h : mapGet (l.foldl hbStep st).registry v = some cid) :
    mapGet st.registry v = some cid := by
  induction l generalizing st with
  | nil => exact h
  | cons d rest ih => exact hbStep_registry_some st d v cid (ih _ h)

theorem hbStep_registry_none (st : HbState) (c : Conn) (u : Nat)
    (h : mapGet st.registry u = none) : mapGet (hbStep st c).registry u = none := by
  by_cases hca : c.isAlive
  · simpa [hbStep, hca] using h
  · cases hcu : c.userId with
    | none => simpa [hbStep, hca, hbCloseConn, hcu] using h
    | some w =>
        by_cases hjw : jsTruthy w
        · have hreg : (hbStep st c).registry = mapDelete st.registry w := by
            simp [hbStep, hca, hbCloseConn, hcu, hjw]
          rw [hreg, mapGet_mapDelete]
          by_cases hv : u = w
          · simp [hv]
          · simpa [hv] using h
        · have hreg : (hbStep st c).registry = st.registry := by
            simp [hbStep, hca, hbCloseConn, hcu, hjw]
          rwa [hreg]

theorem foldl_hbStep_registry_none (l : List Conn) (st : HbState) (u : Nat)
    (h : mapGet st.registry u = none) : mapGet (l.foldl hbStep st).registry u = none := by
  induction l generalizing st with
  | nil => exact h
  | cons d rest ih => exact ih _ (hbStep_registry_none st d u h)

theorem connLookup_some_connId (conns : List Conn) (cid : Nat) (d : Conn)
    (h : connLookup conns cid = some d) : d.connId = cid := by
  have := List.find?_some h
  simpa using this

theorem connLookup_cons_pos (x : Conn) (l : List Conn) (cid : Nat)
    (h : x.connId = cid) : connLookup (x :: l) cid = some x :=
  List.find?_cons_of_pos _ (by simp [h])

theorem connLookup_cons_neg (x : Conn) (l : List Conn) (cid : Nat)
    (h : ¬x.connId = cid) : connLookup (x :: l) cid = connLookup l cid :=
  List.find?_cons_of_neg _ (by simp [h])

theorem removeConn_cons_eq (d : Conn) (rest : List Conn) (k : Nat)
    (h : d.connId = k) : removeConn (d :: rest) k = removeConn rest k := by
  simp [removeConn, List.filter_cons, h]

theorem removeConn_cons_ne (d : Conn) (rest : List Conn) (k : Nat)
    (h : ¬d.connId = k) : removeConn (d :: rest) k = d :: removeConn rest k := by
  simp [removeConn, List.filter_cons, h]

theorem connLookup_setAliveFalse (conns : List Conn) (k cid : Nat) :
    connLookup (setAliveFalse conns k) cid =
      (connLookup conns cid).map
        (fun c => if c.connId == k then { c with isAlive := false } else c) := by
  induction conns with
  | nil => simp [setAliveFalse, connLookup]
  | cons d rest ih =>
      have hcons : setAliveFalse (d :: rest) k =
          (if d.connId == k then { d with isAlive := false } else d) :: setAliveFalse rest k := rfl
      rw [hcons]
      by_cases hdc : d.connId = cid
      · have h1 : (if d.connId == k then { d with isAlive := false } else d).connId = cid := by
          by_cases hdk : d.connId = k
          · simp [hdk]
            omega
          · simp [hdk]
            exact hdc
        rw [connLookup_cons_pos _ _ _ h1, connLookup_cons_pos _ _ _ hdc]
        simp
      · have h1 : ¬(if d.connId == k then { d with isAlive := false } else d).connId = cid := by
          by_cases hdk : d.connId = k
          · simp [hdk]
            omega
          · simp [hdk]
            exact hdc
        rw [connLookup_cons_neg _ _ _ h1, connLookup_cons_neg _ _ _ hdc, ih]

theorem connLookup_removeConn (conns : List Conn) (k cid : Nat) :
    connLookup (removeConn conns k) cid =
      if cid = k then none else connLookup conns cid := by
  induction conns with
  | nil => by_cases h : cid = k <;> simp [removeConn, connLookup, h]
  | cons d rest ih =>
      by_cases hdk : d.connId = k
      · rw [removeConn_cons_eq _ _ _ hdk, ih]
        by_cases hck : cid = k
        · simp [hck]
        · have hdc : ¬d.connId = cid := by omega
          rw [if_neg hck, if_neg hck, connLookup_cons_neg _ _ _ hdc]
      · rw [removeConn_cons_ne _ _ _ hdk]
        by_cases hdc : d.connId = cid
        · have hck : ¬cid = k := by omega
          rw [if_neg hck, connLookup_cons_pos _ _ _ hdc, connLookup_cons_pos _ _ _ hdc]
        · rw [connLookup_cons_neg _ _ _ hdc, ih]
          by_cases hck : cid = k
          · simp [hck]
          · rw [if_neg hck, if_neg hck, connLookup_cons_neg _ _ _ hdc]

theorem hbStep_lookup_back (st : HbState) (e : Conn) (cid : Nat) (d1 : Conn)
    (h : connLookup (hbStep st e).conns cid = some d1) :
    ∃ d0, connLookup st.conns cid = some d0 ∧ d0.readyState = d1.readyState := by
  by_cases hea : e.isAlive
  · have hc : (hbStep st e).conns = setAliveFalse st.conns e.connId := by
      simp [hbStep, hea]
    rw [hc, connLookup_setAliveFalse] at h
    cases hl : connLookup st.conns cid with
    | none => rw [hl] at h; simp at h
    | some d0 =>
        rw [hl] at h
        simp at h
        refine ⟨d0, rfl, ?_⟩
        rw [← h]
        by_cases hk : d0.connId = e.connId <;> simp [hk]
  · have hc : (hbStep st e).conns = removeConn st.conns e.connId := by
      cases hcu : e.userId with
      | none => simp [hbStep, hea, hbCloseConn, hcu]
      | some u => by_cases hju : jsTruthy u <;> simp [hbStep, hea, hbCloseConn, hcu, hju]
    rw [hc, connLookup_removeConn] at h
    by_cases hck : cid = e.connId
    · simp [hck] at h
    · rw [if_neg hck] at h
      exact ⟨d1, h, rfl⟩

theorem foldl_hbStep_lookup_back (l : List Conn) (st : HbState) (cid : Nat) (d : Conn)
    (h : connLookup (l.foldl hbStep st).conns cid = some d) :
    ∃ d0, connLookup st.conns cid = some d0 ∧ d0.readyState = d.readyState := by
  induction l generalizing st with
  | nil => exact ⟨d, h, rfl⟩
  | cons e rest ih =>
      obtain ⟨d1, hd1, hr1⟩ := ih (hbStep st e) h
      obtain ⟨d0, hd0, hr0⟩ := hbStep_lookup_back st e cid d1 hd1
      exact ⟨d0, hd0, hr0.trans hr1⟩

theorem hbStep_lookup_preserved (st : HbState) (e : Conn) (cid : Nat) (x : Conn)
    (hne : e.connId ≠ cid) (hx : connLookup st.conns cid = some x) :
    connLookup (hbStep st e).conns cid = some x := by
  have hxid : x.connId = cid := connLookup_some_connId _ _ _ hx
  by_cases hea : e.isAlive
  · have hc : (hbStep st e).conns = setAliveFalse st.conns e.connId := by
      simp [hbStep, hea]
    rw [hc, connLookup_setAliveFalse, hx]
    have : ¬x.connId = e.connId := by omega
    simp [this]
  · have hc : (hbStep st e).conns = removeConn st.conns e.connId := by
      cases hcu : e.userId with
      | none => simp [hbStep, hea, hbCloseConn, hcu]
      | some u => by_cases hju : jsTruthy u <;> simp [hbStep, hea, hbCloseConn, hcu, hju]
    rw [hc, connLookup_removeConn, if_neg (by omega : ¬cid = e.connId)]
    exact hx

theorem foldl_hbStep_lookup_preserved (l : List Conn) (st : HbState) (cid : Nat) (x : Conn)
    (hl : ∀ d ∈ l, d.connId ≠ cid) (hx : connLookup st.conns cid = some x) :
    connLookup (l.foldl hbStep st).conns cid = some x := by
  induction l generalizing st with
  | nil => exact hx
  | cons e rest ih =>
      exact ih _ (fun d hd => hl d (List.mem_cons_of_mem _ hd))
        (hbStep_lookup_preserved st e cid x (hl e (List.mem_cons_self _ _)) hx)

theorem connLookup_append_self (l1 l2 : List Conn) (c : Conn)
    (hl1 : ∀ d ∈ l1, d.connId ≠ c.connId) :
    connLookup (l1 ++ c :: l2) c.connId = some c := by
  induction l1 with
  | nil => exact connLookup_cons_pos c l2 c.connId rfl
  | cons d rest ih =>
      rw [List.cons_append, connLookup_cons_neg d _ _ (hl1 d (List.mem_cons_self _ _))]
      exact ih (fun x hx => hl1 x (List.mem_cons_of_mem _ hx))

theorem mem_statusSendsVia (reg : List (Nat × Nat)) (conns : List Conn)
    (u : Nat) (s : String) (v cid : Nat) (d : Conn)
    (hreg : (v, cid) ∈ reg) (hd : connLookup conns cid = some d)
    (hopen : d.readyState = wsOPEN) :
    (cid, Envelope.userStatus u s) ∈ statusSendsVia reg conns u s := by
  unfold statusSendsVia
  refine List.mem_map.2 ⟨(v, cid), List.mem_filter.2 ⟨hreg, ?_⟩, rfl⟩
  simp [hd, hopen]

theorem foldl_hbStep_evicts (l : List Conn) (st : HbState) (c : Conn) (u : Nat)
    (hc : c ∈ l) (hdead : c.isAlive = false) (hu : c.userId = some u) (hu0 : u ≠ 0) :
    c.connId ∈ (l.foldl hbStep st).terminated ∧
    mapGet (l.foldl hbStep st).registry u = none ∧
    (u, "offline") ∈ (l.foldl hbStep st).statusWrites ∧
    (∀ v cid, mapGet (l.foldl hbStep st).registry v = some cid →
      ∀ d, connLookup (l.foldl hbStep st).conns cid = some d → d.readyState = wsOPEN →
        (cid, Envelope.userStatus u "offline") ∈ (l.foldl hbStep st).sends) := by
  obtain ⟨l1, l2, hsplit⟩ := List.append_of_mem hc
  subst hsplit
  rw [List.foldl_append, List.foldl_cons]
  have hclose : hbStep (List.foldl hbStep st l1) c =
      { conns := removeConn (List.foldl hbStep st l1).conns c.connId
        registry := mapDelete (List.foldl hbStep st l1).registry u
        statusWrites := (List.foldl hbStep st l1).statusWrites ++ [(u, "offline")]
        sends := (List.foldl hbStep st l1).sends ++
          statusSendsVia (mapDelete (List.foldl hbStep st l1).registry u)
            (removeConn (List.foldl hbStep st l1).conns c.connId) u "offline"
        terminated := (List.foldl hbStep st l1).terminated ++ [c.connId] } := by
    have hju : jsTruthy u = true := by simp [jsTruthy, hu0]
    simp [hbStep, hdead, hbCloseConn, hu, hju]
  rw [hclose]
  refine ⟨?_, ?_, ?_, ?_⟩
  · exact foldl_hbStep_terminated_mem l2 _ c.connId (by simp)
  · exact foldl_hbStep_registry_none l2 _ u (by rw [mapGet_mapDelete]; simp)
  · exact foldl_hbStep_writes_mem l2 _ (u, "offline") (by simp)
  · intro v cid hvr d hd hopen
    have h2 := foldl_hbStep_registry_some l2 _ v cid hvr
    have hmem2 := mapGet_mem _ v cid h2
    obtain ⟨d0, hd0, hrs⟩ := foldl_hbStep_lookup_back l2 _ cid d hd
    have hopen0 : d0.readyState = wsOPEN := by rw [hrs, hopen]
    have hsend : (cid, Envelope.userStatus u "offline") ∈
        statusSendsVia (mapDelete (List.foldl hbStep st l1).registry u)
          (removeConn (List.foldl hbStep st l1).conns c.connId) u "offline" :=
      mem_statusSendsVia _ _ u "offline" v cid d0 hmem2 hd0 hopen0
    exact foldl_hbStep_sends_mem l2 _ _ (by simp [hsend])

theorem hbTick_alive_conn_survives (st : HbState) (c : Conn)
    (hnd : (st.conns.map Conn.connId).Nodup) (hc : c ∈ st.conns)
    (halive : c.isAlive = true) :
    connLookup (hbTick st).conns c.connId = some { c with isAlive := false } := by
  obtain ⟨l1, l2, hsplit⟩ := List.append_of_mem hc
  rw [hsplit, List.map_append, List.map_cons] at hnd
  rcases List.nodup_append.1 hnd with ⟨hnd1, hnd2, hdisj⟩
  have hnotin2 : c.connId ∉ l2.map Conn.connId := (List.nodup_cons.1 hnd2).1
  have hnotin1 : c.connId ∉ l1.map Conn.connId := fun hmem =>
    hdisj hmem (List.mem_cons_self _ _)
  have hl1 : ∀ d ∈ l1, d.connId ≠ c.connId := fun d hd he =>
    hnotin1 (he ▸ List.mem_map.2 ⟨d, hd, rfl⟩)
  have hl2 : ∀ d ∈ l2, d.connId ≠ c.connId := fun d hd he =>
    hnotin2 (he ▸ List.mem_map.2 ⟨d, hd, rfl⟩)
  have hx0 : connLookup st.conns c.connId = some c := by
    rw [hsplit]
    exact connLookup_append_self l1 l2 c hl1
  have ht : hbTick st = List.foldl hbStep (hbStep (List.foldl hbStep st l1) c) l2 := by
    unfold hbTick
    rw [hsplit, List.foldl_append, List.foldl_cons]
  rw [ht]
  have h1 : connLookup (List.foldl hbStep st l1).conns c.connId = some c :=
    foldl_hbStep_lookup_preserved l1 st c.connId c hl1 hx0
  have h2 : connLookup (hbStep (List.foldl hbStep st l1) c).conns c.connId =
      some { c with isAlive := false } := by
    have hcn : (hbStep (List.foldl hbStep st l1) c).conns =
        setAliveFalse (List.foldl hbStep st l1).conns c.connId := by
      simp [hbStep, halive]
    rw [hcn, connLookup_setAliveFalse, h1]
    simp
  exact foldl_hbStep_lookup_preserved l2 _ c.connId _ hl2 h2

/-- C5 (amended): a connection registered under a *nonzero* user id that
misses two consecutive 30-second probe cycles — alive at a tick, probed
there, and never acknowledging — is terminated by the following tick; its
user's registry entry is removed, the user's persisted status is set to
offline, and every connection still registered and open after the sweep has
received the `userStatus` offline presence envelope. (For user id 0 the
close handler's `if (ws.userId)` guard is JS-falsy and deregistration is
skipped — see the counterexample.) -/
theorem liveness_two_missed_probes_evicts (st : HbState) (c : Conn) (u : Nat)
    (hnd : (st.conns.map Conn.connId).Nodup) (hc : c ∈ st.conns)
    (halive : c.isAlive = true) (hu : c.userId = some u) (hu0 : u ≠ 0)
    (_hreg : mapGet st.registry u = some c.connId) :
    c.connId ∈ (hbTick (hbTick st)).terminated ∧
    mapGet (hbTick (hbTick st)).registry u = none ∧
    (u, "offline") ∈ (hbTick (hbTick st)).statusWrites ∧
    (∀ v cid, mapGet (hbTick (hbTick st)).registry v = some cid →
      ∀ d, connLookup (hbTick (hbTick st)).conns cid = some d → d.readyState = wsOPEN →
        (cid, Envelope.userStatus u "offline") ∈ (hbTick (hbTick st)).sends) := by
  have hsurv := hbTick_alive_conn_survives st c hnd hc halive
  have hmem : ({ c with isAlive := false } : Conn) ∈ (hbTick st).conns :=
    List.mem_of_find?_eq_some hsurv
  exact foldl_hbStep_evicts (hbTick st).conns (hbTick st)
    { c with isAlive := false } u hmem rfl hu hu0

/-- C5 witness: users 2 and 3 connected and registered; user 2's connection
never answers a probe, so two ticks evict it with the offline status write
and terminated transport. -/
theorem liveness_eviction_witness :
    ((hbSample.conns.map Conn.connId).Nodup ∧ connLive2 ∈ hbSample.conns ∧
      connLive2.isAlive = true ∧ connLive2.userId = some 2 ∧ (2 : Nat) ≠ 0 ∧
      mapGet hbSample.registry 2 = some connLive2.connId) ∧
    (connLive2.connId ∈ (hbTick (hbTick hbSample)).terminated ∧
      mapGet (hbTick (hbTick hbSample)).registry 2 = none ∧
      (2, "offline") ∈ (hbTick (hbTick hbSample)).statusWrites ∧
      (∀ v cid, mapGet (hbTick (hbTick hbSample)).registry v = some cid →
        ∀ d, connLookup (hbTick (hbTick hbSample)).conns cid = some d →
          d.readyState = wsOPEN →
          (cid, Envelope.userStatus 2 "offline") ∈ (hbTick (hbTick hbSample)).sends)) :=
  ⟨⟨by decide, by decide, by decide, by decide, by decide, by decide⟩,
    liveness_two_missed_probes_evicts hbSample connLive2 2 (by decide) (by decide)
      (by decide) (by decide) (by decide) (by decide)⟩

/-- C5 counterexample: a connection registered under user id 0 (reachable,
since the `auth` case stores `data.userId` unguarded) misses its probes and
is terminated, but the close handler's `if (ws.userId)` guard is JS-falsy
for 0: the registry entry survives the sweep, no offline status write lands
and no presence envelope is broadcast — refuting the claim's "registry
entry removed, status set offline, presence broadcast" for every registered
connection. -/
theorem liveness_zero_user_entry_survives_cex :
    connLive0.connId ∈ (hbTick (hbTick hbZero)).terminated ∧
    mapGet (hbTick (hbTick hbZero)).registry 0 = some connLive0.connId ∧
    (hbTick (hbTick hbZero)).statusWrites = [] ∧
    (hbTick (hbTick hbZero)).sends = [] := by
  refine ⟨by decide, by decide, by decide, by decide⟩

end ChatGenius
